import Mathlib

/-!
Verification of the habit-tracker's local-data security subsystem
(`Storage` in `src/js/gdrive.js` and the restore flow of `Auth` in the
unnamed auth module): key derivation, PIN verification, encryption and
decryption of the JSON data document, the session key/document cache,
and the backup restore reconciler.

Host primitives (CryptoJS SHA-256 / PBKDF2 / AES and the ECMAScript
`JSON.stringify` / `JSON.parse` pair) are not part of the repository;
they are modelled by idealized computable functions exposing exactly
the contracts the code relies on:
  * SHA-256 and PBKDF2 as injective (collision-free) one-way maps,
  * AES as a tagged pairing of plaintext and key, with wrong-key or
    malformed-input decryption surfacing as a thrown error (which the
    source catches), and
  * JSON serialization as an injective encoder with a total parser
    satisfying `parse (stringify d) = some d`.
Everything else is translated statement-for-statement from the source.
-/

/-- A JSON value, the shape of every document this subsystem handles.
Numeric leaves are modelled as integers: the security subsystem never
computes with numbers, it only serializes them. -/
inductive Json where
  | null : Json
  | bool : Bool → Json
  | num : Int → Json
  | str : String → Json
  | arr : List Json → Json
  | obj : List (String × Json) → Json

/-- JavaScript truthiness of a JSON value (`NaN` is not representable
in the model; documents never contain it). -/
def jsTruthy : Json → Bool
  | .null => false
  | .bool b => b
  | .num n => n != 0
  | .str s => s != ""
  | .arr _ => true
  | .obj _ => true

/-- JavaScript property access `d.k`: a field of an object, `undefined`
(here `none`) on a missing field or a non-object. -/
def jsonGet (d : Json) (k : String) : Option Json :=
  match d with
  | .obj fs => fs.lookup k
  | _ => none

/-- Truthiness of a possibly-`undefined`/`null` JavaScript value. -/
def truthyOpt (o : Option Json) : Bool :=
  match o with
  | some v => jsTruthy v
  | none => false

/-- Unary length code used by the model serializer: `n` hashes then a
dollar terminator. -/
def unaryCode : Nat → List Char
  | 0 => ['$']
  | n + 1 => '#' :: unaryCode n

mutual
/-- Model of `JSON.stringify` at the character level: an unambiguous,
injective, prefix-free encoding of a JSON value. -/
def encJson : Json → List Char
  | .null => ['n']
  | .bool false => ['b', '0']
  | .bool true => ['b', '1']
  | .num (Int.ofNat m) => 'i' :: '+' :: unaryCode m
  | .num (Int.negSucc m) => 'i' :: '-' :: unaryCode (m + 1)
  | .str s => 's' :: (unaryCode s.length ++ s.data)
  | .arr xs => 'a' :: (unaryCode xs.length ++ encList xs)
  | .obj fs => 'o' :: (unaryCode fs.length ++ encFields fs)

/-- Encoding of a list of array elements, concatenated. -/
def encList : List Json → List Char
  | [] => []
  | x :: xs => encJson x ++ encList xs

/-- Encoding of object fields: length-prefixed key, then the value. -/
def encFields : List (String × Json) → List Char
  | [] => []
  | (k, v) :: fs => unaryCode k.length ++ k.data ++ (encJson v ++ encFields fs)
end

/-- Read back a unary length code. -/
def parseUnary : List Char → Option (Nat × List Char)
  | '$' :: rest => some (0, rest)
  | '#' :: rest =>
      match parseUnary rest with
      | some (n, r) => some (n + 1, r)
      | none => none
  | _ => none

/-- Take exactly `n` characters, failing if the input is shorter. -/
def takeChars : Nat → List Char → Option (List Char × List Char)
  | 0, cs => some ([], cs)
  | _ + 1, [] => none
  | n + 1, c :: cs =>
      match takeChars n cs with
      | some (a, r) => some (c :: a, r)
      | none => none

/-- One fuel level of the parser: a value parser, an array-elements
parser and an object-fields parser. -/
structure ParseFns where
  val : List Char → Option (Json × List Char)
  many : Nat → List Char → Option (List Json × List Char)
  fields : Nat → List Char → Option (List (String × Json) × List Char)

/-- The fuel-exhausted parser. -/
def parseDepth0 : ParseFns where
  val := fun _ => none
  many := fun k cs =>
    match k with
    | 0 => some ([], cs)
    | _ + 1 => none
  fields := fun k cs =>
    match k with
    | 0 => some ([], cs)
    | _ + 1 => none

/-- One more level of fuel on top of `p`. -/
def parseDepthS (p : ParseFns) : ParseFns where
  val := fun cs =>
    match cs with
    | 'n' :: r => some (.null, r)
    | 'b' :: '0' :: r => some (.bool false, r)
    | 'b' :: '1' :: r => some (.bool true, r)
    | 'i' :: '+' :: r =>
        (parseUnary r).bind fun q => some (.num (Int.ofNat q.1), q.2)
    | 'i' :: '-' :: r =>
        (parseUnary r).bind fun q => some (.num (-(Int.ofNat q.1)), q.2)
    | 's' :: r =>
        (parseUnary r).bind fun q =>
          (takeChars q.1 q.2).bind fun w => some (.str ⟨w.1⟩, w.2)
    | 'a' :: r =>
        (parseUnary r).bind fun q =>
          (p.many q.1 q.2).bind fun w => some (.arr w.1, w.2)
    | 'o' :: r =>
        (parseUnary r).bind fun q =>
          (p.fields q.1 q.2).bind fun w => some (.obj w.1, w.2)
    | _ => none
  many := fun k cs =>
    match k with
    | 0 => some ([], cs)
    | k + 1 =>
        (p.val cs).bind fun q =>
          (p.many k q.2).bind fun w => some (q.1 :: w.1, w.2)
  fields := fun k cs =>
    match k with
    | 0 => some ([], cs)
    | k + 1 =>
        (parseUnary cs).bind fun q =>
          (takeChars q.1 q.2).bind fun w =>
            (p.val w.2).bind fun v =>
              (p.fields k v.2).bind fun f => some ((⟨w.1⟩, v.1) :: f.1, f.2)

/-- The parser with `fuel` levels of nesting available. -/
def parseFns : Nat → ParseFns
  | 0 => parseDepth0
  | fuel + 1 => parseDepthS (parseFns fuel)

/-- Fuel-indexed parser inverting `encJson`. -/
def parseVal (fuel : Nat) : List Char → Option (Json × List Char) :=
  (parseFns fuel).val

/-- Parse exactly `k` array elements. -/
def parseMany (fuel : Nat) : Nat → List Char → Option (List Json × List Char) :=
  (parseFns fuel).many

/-- Parse exactly `k` object fields. -/
def parseFields (fuel : Nat) :
    Nat → List Char → Option (List (String × Json) × List Char) :=
  (parseFns fuel).fields

/-- Model of `JSON.stringify`. -/
def JSONstringify (j : Json) : String := ⟨encJson j⟩

/-- Model of `JSON.parse` in throwing form (`JSON.parse` raises a
`SyntaxError` on input that is not the serialization of a value). -/
def JSONparseExc (s : String) : Except Unit Json :=
  match parseVal (s.length + 1) s.data with
  | some (j, []) => .ok j
  | _ => .error ()

/-- `JSON.parse` with the error collapsed to `none`. -/
def JSONparse (s : String) : Option Json := (JSONparseExc s).toOption

theorem unaryCode_length (n : Nat) : (unaryCode n).length = n + 1 := by
  induction n with
  | zero => rfl
  | succ n ih => simp [unaryCode, ih]

theorem parseUnary_code (n : Nat) (rest : List Char) :
    parseUnary (unaryCode n ++ rest) = some (n, rest) := by
  induction n with
  | zero => rfl
  | succ n ih => simp [unaryCode, parseUnary, ih]

theorem takeChars_append (cs rest : List Char) :
    takeChars cs.length (cs ++ rest) = some (cs, rest) := by
  induction cs with
  | nil => rfl
  | cons c cs ih => simp [takeChars, ih]

theorem encJson_length_pos (j : Json) : 1 ≤ (encJson j).length := by
  cases j with
  | null => simp [encJson]
  | bool b => cases b <;> simp [encJson]
  | num n => cases n <;> simp [encJson]
  | str s => simp [encJson]
  | arr xs => simp [encJson]
  | obj fs => simp [encJson]

theorem parseVal_null (fuel : Nat) (r : List Char) :
    parseVal (fuel + 1) ('n' :: r) = some (.null, r) := rfl

theorem parseVal_boolF (fuel : Nat) (r : List Char) :
    parseVal (fuel + 1) ('b' :: '0' :: r) = some (.bool false, r) := rfl

theorem parseVal_boolT (fuel : Nat) (r : List Char) :
    parseVal (fuel + 1) ('b' :: '1' :: r) = some (.bool true, r) := rfl

theorem parseVal_plus (fuel : Nat) (r : List Char) :
    parseVal (fuel + 1) ('i' :: '+' :: r) =
      (parseUnary r).bind fun q => some (.num (Int.ofNat q.1), q.2) := rfl

theorem parseVal_minus (fuel : Nat) (r : List Char) :
    parseVal (fuel + 1) ('i' :: '-' :: r) =
      (parseUnary r).bind fun q => some (.num (-(Int.ofNat q.1)), q.2) := rfl

theorem parseVal_s (fuel : Nat) (r : List Char) :
    parseVal (fuel + 1) ('s' :: r) =
      (parseUnary r).bind fun q =>
        (takeChars q.1 q.2).bind fun w => some (.str ⟨w.1⟩, w.2) := rfl

theorem parseVal_a (fuel : Nat) (r : List Char) :
    parseVal (fuel + 1) ('a' :: r) =
      (parseUnary r).bind fun q =>
        (parseMany fuel q.1 q.2).bind fun w => some (.arr w.1, w.2) := rfl

theorem parseVal_o (fuel : Nat) (r : List Char) :
    parseVal (fuel + 1) ('o' :: r) =
      (parseUnary r).bind fun q =>
        (parseFields fuel q.1 q.2).bind fun w => some (.obj w.1, w.2) := rfl

theorem parseMany_zero (fuel : Nat) (cs : List Char) :
    parseMany fuel 0 cs = some ([], cs) := by
  cases fuel <;> rfl

theorem parseMany_succ (fuel k : Nat) (cs : List Char) :
    parseMany (fuel + 1) (k + 1) cs =
      (parseVal fuel cs).bind fun q =>
        (parseMany fuel k q.2).bind fun w => some (q.1 :: w.1, w.2) := rfl

theorem parseFields_zero (fuel : Nat) (cs : List Char) :
    parseFields fuel 0 cs = some ([], cs) := by
  cases fuel <;> rfl

theorem parseFields_succ (fuel k : Nat) (cs : List Char) :
    parseFields (fuel + 1) (k + 1) cs =
      (parseUnary cs).bind fun q =>
        (takeChars q.1 q.2).bind fun w =>
          (parseVal fuel w.2).bind fun v =>
            (parseFields fuel k v.2).bind fun f =>
              some ((⟨w.1⟩, v.1) :: f.1, f.2) := rfl

theorem parse_inverts_enc (fuel : Nat) :
    (∀ j rest, (encJson j).length ≤ fuel →
        parseVal fuel (encJson j ++ rest) = some (j, rest))
    ∧ (∀ xs rest, xs.length + (encList xs).length ≤ fuel →
        parseMany fuel xs.length (encList xs ++ rest) = some (xs, rest))
    ∧ (∀ fs rest, fs.length + (encFields fs).length ≤ fuel →
        parseFields fuel fs.length (encFields fs ++ rest) = some (fs, rest)) := by
  induction fuel with
  | zero =>
      refine ⟨fun j rest h => absurd (le_trans (encJson_length_pos j) h) (by omega), ?_, ?_⟩
      · intro xs rest h
        match xs with
        | [] => simp [encList, parseMany, parseFns, parseDepth0]
        | x :: xs => simp at h
      · intro fs rest h
        match fs with
        | [] => simp [encFields, parseFields, parseFns, parseDepth0]
        | f :: fs => simp at h
  | succ fuel ih =>
      obtain ⟨ihv, ihm, ihf⟩ := ih
      refine ⟨?_, ?_, ?_⟩
      · intro j rest h
        match j with
        | .null => rw [show encJson .null = ['n'] from by rw [encJson]]
                   exact parseVal_null fuel rest
        | .bool false =>
            rw [show encJson (.bool false) = ['b', '0'] from by rw [encJson]]
            exact parseVal_boolF fuel rest
        | .bool true =>
            rw [show encJson (.bool true) = ['b', '1'] from by rw [encJson]]
            exact parseVal_boolT fuel rest
        | .num (Int.ofNat m) =>
            rw [show encJson (.num (Int.ofNat m)) = 'i' :: '+' :: unaryCode m
                  from by rw [encJson]]
            rw [List.cons_append, List.cons_append, parseVal_plus,
              parseUnary_code]
            simp only [Option.some_bind]
        | .num (Int.negSucc m) =>
            rw [show encJson (.num (Int.negSucc m)) =
                  'i' :: '-' :: unaryCode (m + 1) from by rw [encJson]]
            rw [List.cons_append, List.cons_append, parseVal_minus,
              parseUnary_code]
            simp only [Option.some_bind, Option.some.injEq, Prod.mk.injEq,
              Json.num.injEq, and_true]
            rw [Int.negSucc_eq]
            simp only [Int.ofNat_eq_coe]
            omega
        | .str s =>
            have hl : s.length = s.data.length := rfl
            rw [show encJson (.str s) = 's' :: (unaryCode s.length ++ s.data)
                  from by rw [encJson]]
            rw [List.cons_append, List.append_assoc, parseVal_s,
              parseUnary_code]
            simp only [Option.some_bind]
            rw [hl, takeChars_append]
            simp only [Option.some_bind]
        | .arr xs =>
            have hlen : xs.length + (encList xs).length ≤ fuel := by
              simp [encJson, unaryCode_length] at h
              omega
            rw [show encJson (.arr xs) = 'a' :: (unaryCode xs.length ++ encList xs)
                  from by rw [encJson]]
            rw [List.cons_append, List.append_assoc, parseVal_a,
              parseUnary_code]
            simp only [Option.some_bind]
            rw [ihm xs rest hlen]
            simp only [Option.some_bind]
        | .obj fs =>
            have hlen : fs.length + (encFields fs).length ≤ fuel := by
              simp [encJson, unaryCode_length] at h
              omega
            rw [show encJson (.obj fs) = 'o' :: (unaryCode fs.length ++ encFields fs)
                  from by rw [encJson]]
            rw [List.cons_append, List.append_assoc, parseVal_o,
              parseUnary_code]
            simp only [Option.some_bind]
            rw [ihf fs rest hlen]
            simp only [Option.some_bind]
      · intro xs rest h
        match xs with
        | [] =>
            rw [show encList [] = [] from by rw [encList]]
            exact parseMany_zero _ rest
        | x :: xs =>
            simp [encList] at h
            have hx : (encJson x).length ≤ fuel := by omega
            have hxs : xs.length + (encList xs).length ≤ fuel := by omega
            rw [show encList (x :: xs) = encJson x ++ encList xs
                  from by rw [encList]]
            rw [List.length_cons, List.append_assoc, parseMany_succ,
              ihv x (encList xs ++ rest) hx]
            simp only [Option.some_bind]
            rw [ihm xs rest hxs]
            simp only [Option.some_bind]
      · intro fs rest h
        match fs with
        | [] =>
            rw [show encFields [] = [] from by rw [encFields]]
            exact parseFields_zero _ rest
        | (k, v) :: fs =>
            simp [encFields, unaryCode_length] at h
            have hv : (encJson v).length ≤ fuel := by omega
            have hfs : fs.length + (encFields fs).length ≤ fuel := by omega
            have hl : k.length = k.data.length := rfl
            rw [show encFields ((k, v) :: fs) =
                  unaryCode k.length ++ k.data ++ (encJson v ++ encFields fs)
                  from by rw [encFields]]
            rw [List.length_cons, List.append_assoc, List.append_assoc,
              parseFields_succ, parseUnary_code]
            simp only [Option.some_bind]
            rw [hl, takeChars_append]
            simp only [Option.some_bind]
            rw [List.append_assoc, ihv v (encFields fs ++ rest) hv]
            simp only [Option.some_bind]
            rw [ihf fs rest hfs]
            simp only [Option.some_bind]

theorem JSONparseExc_stringify (j : Json) :
    JSONparseExc (JSONstringify j) = .ok j := by
  have hd : (JSONstringify j).data = encJson j := rfl
  have hl : (JSONstringify j).length = (encJson j).length := rfl
  have h := (parse_inverts_enc ((encJson j).length + 1)).1 j []
    (by omega)
  rw [List.append_nil] at h
  rw [JSONparseExc, hd, hl, h]

theorem JSONparse_stringify (j : Json) :
    JSONparse (JSONstringify j) = some j := by
  rw [JSONparse, JSONparseExc_stringify]
  rfl

theorem JSONstringify_ne_empty (j : Json) : JSONstringify j ≠ "" := by
  intro h
  have hd : (JSONstringify j).data = encJson j := rfl
  rw [h] at hd
  have : (encJson j).length = 0 := by rw [← hd]; rfl
  have := encJson_length_pos j
  omega

/-! ### Models of the CryptoJS primitives

`CryptoJS.SHA256`, `CryptoJS.PBKDF2` and `CryptoJS.AES` are library
primitives, not repository code.  They are modelled as ideal
(collision-free) one-way maps: a digest or derived key is represented
by its inputs, which makes determinism definitional and collisions
impossible — the "overwhelming probability" guarantees of the real
primitives become exact in the model.  The key-size (256/32) and
iteration-count (1000) arguments are identical at every call site in
the source and are therefore elided. -/

/-- An SHA-256 digest, represented by its preimage (ideal hash). -/
structure Sha256Digest where
  preimage : String
deriving DecidableEq

/-- Model of `CryptoJS.SHA256(s).toString()`. -/
def CryptoJS.SHA256 (s : String) : Sha256Digest := ⟨s⟩

/-- A PBKDF2-derived key, represented by password and salt (ideal KDF;
`keySize: 256/32, iterations: 1000` at every call site). -/
structure PBKDF2Key where
  pw : String
  salt : String
deriving DecidableEq

/-- Model of `CryptoJS.PBKDF2(pw, salt, opts).toString()`. -/
def CryptoJS.PBKDF2 (pw salt : String) : PBKDF2Key := ⟨pw, salt⟩

/-- An AES ciphertext string: either the output of
`CryptoJS.AES.encrypt(plain, key).toString()` (the per-encryption
random OpenSSL salt is elided, making encryption deterministic in the
model), or an arbitrary string that is not a well-formed ciphertext. -/
inductive CipherText where
  | enc (plain : String) (key : PBKDF2Key)
  | raw (s : String)
deriving DecidableEq

/-- Model of `CryptoJS.AES.encrypt(plain, key).toString()`. -/
def CryptoJS.AESencrypt (plain : String) (key : PBKDF2Key) : CipherText :=
  .enc plain key

/-- Model of `CryptoJS.AES.decrypt(ct, key).toString(CryptoJS.enc.Utf8)`:
decryption under a wrong key or of a malformed ciphertext yields garbage
bytes whose UTF-8 decoding throws (`Except.error`, caught by callers). -/
def CryptoJS.AESdecrypt (ct : CipherText) (key : PBKDF2Key) :
    Except Unit String :=
  match ct with
  | .enc plain k2 => if key = k2 then .ok plain else .error ()
  | .raw _ => .error ()

/-! ### The Storage module (`src/js/gdrive.js`, `Storage`)

`localStorage` and the in-memory cache are combined into one explicit
state record.  Each persisted entry holds values of a single shape
(hex salt string, hash digest, ciphertext blob), so the string-valued
store is modelled with typed optional fields; `localStorage.getItem`
returning `null` is `none`.  `generateSalt()` reads the ambient RNG, so
every operation that calls it takes the fresh salt as an explicit
parameter (the RNG output: a 32-character hex string, never empty). -/

structure StorageState where
  /-- `localStorage['habit_salt']` -/
  salt : Option String
  /-- `localStorage['habit_pin_hash']` -/
  pinHash : Option Sha256Digest
  /-- `localStorage['habit_data']` -/
  data : Option CipherText
  /-- `localStorage['habit_settings']` -/
  settings : Option String
  /-- `localStorage['habit_pin_length']` (written by `Auth.savePinLength`) -/
  pinLength : Option Nat
  /-- `Storage._cachedKey` -/
  cachedKey : Option PBKDF2Key
  /-- `Storage._cachedData` -/
  cachedData : Option Json

/-- JavaScript truthiness of a ciphertext string (only the empty raw
string is falsy; well-formed ciphertexts are never empty). -/
def ctTruthy : CipherText → Bool
  | .enc _ _ => true
  | .raw s => s != ""

/-- Model of `Storage.hashPIN`. -/
def Storage.hashPIN (pin salt : String) : Sha256Digest :=
  CryptoJS.SHA256 (pin ++ salt)

/-- Model of `Storage.deriveKey`. -/
def Storage.deriveKey (pin salt : String) : PBKDF2Key :=
  CryptoJS.PBKDF2 pin salt

/-- Model of `Storage.encrypt`: stringify, then AES-encrypt. -/
def Storage.encrypt (data : Json) (key : PBKDF2Key) : CipherText :=
  CryptoJS.AESencrypt (JSONstringify data) key

/-- The body of `Storage.decrypt` before its `try/catch`: AES-decrypt,
return `null` on an empty decrypted string, else `JSON.parse`.  Both
the UTF-8 decoding and `JSON.parse` can throw. -/
def Storage.decryptBody (encryptedData : CipherText) (key : PBKDF2Key) :
    Except Unit (Option Json) :=
  match CryptoJS.AESdecrypt encryptedData key with
  | .error e => .error e
  | .ok decryptedString =>
      if decryptedString = "" then .ok none
      else
        match JSONparseExc decryptedString with
        | .error e => .error e
        | .ok j => .ok (some j)

/-- Model of `Storage.decrypt`: the `catch` turns any throw into `null`. -/
def Storage.decrypt (encryptedData : CipherText) (key : PBKDF2Key) :
    Option Json :=
  match Storage.decryptBody encryptedData key with
  | .ok r => r
  | .error _ => none

/-- Model of `Storage.cacheKey`: derive and cache the key when a salt is
present (the empty string would be falsy), and re-decrypt the data blob
into the cache when one is present. -/
def Storage.cacheKey (pin : String) (st : StorageState) : StorageState :=
  match st.salt with
  | some salt =>
      if salt = "" then st
      else
        let key := Storage.deriveKey pin salt
        let withKey := { st with cachedKey := some key }
        match st.data with
        | some encryptedData =>
            if ctTruthy encryptedData then
              { withKey with cachedData := Storage.decrypt encryptedData key }
            else withKey
        | none => withKey
  | none => st

/-- Model of `Storage.clearCache`. -/
def Storage.clearCache (st : StorageState) : StorageState :=
  { st with cachedKey := none, cachedData := none }

/-- Model of `Storage.isPINSetup`. -/
def Storage.isPINSetup (st : StorageState) : Bool :=
  st.pinHash.isSome

/-- The `initialData` literal from `Storage.setupPIN`. -/
def Storage.initialData : Json :=
  .obj [("habits", .arr []),
        ("completions", .obj []),
        ("settings", .obj [("theme", .str "auto"),
                           ("defaultView", .str "list")])]

/-- Model of `Storage.setupPIN`; `freshSalt` is the `generateSalt()`
output. -/
def Storage.setupPIN (freshSalt : String) (pin : String) (st : StorageState) :
    Bool × StorageState :=
  let salt := freshSalt
  let pinHash := Storage.hashPIN pin salt
  let encryptionKey := Storage.deriveKey pin salt
  let encryptedData := Storage.encrypt Storage.initialData encryptionKey
  (true,
   { st with
      salt := some salt
      pinHash := some pinHash
      data := some encryptedData
      cachedKey := some encryptionKey
      cachedData := some Storage.initialData })

/-- Model of `Storage.verifyPIN`: recompute the salted hash, compare for
exact equality, and cache the key on success. -/
def Storage.verifyPIN (pin : String) (st : StorageState) :
    Bool × StorageState :=
  match st.salt, st.pinHash with
  | some salt, some storedHash =>
      if salt = "" then (false, st)
      else
        let inputHash := Storage.hashPIN pin salt
        if inputHash = storedHash then (true, Storage.cacheKey pin st)
        else (false, st)
  | _, _ => (false, st)

/-- Model of `Storage.getData`: serve from cache when the cached value
is truthy, else decrypt on demand with the cached key. -/
def Storage.getData (st : StorageState) : Option Json × StorageState :=
  if truthyOpt st.cachedData then (st.cachedData, st)
  else
    match st.cachedKey with
    | none => (none, st)
    | some key =>
        match st.data with
        | some encryptedData =>
            if ctTruthy encryptedData then
              let d := Storage.decrypt encryptedData key
              (d, { st with cachedData := d })
            else (none, st)
        | none => (none, st)

/-- Model of `Storage.saveData`: requires a cached key; encrypts,
persists and updates the cache. -/
def Storage.saveData (data : Json) (st : StorageState) :
    Bool × StorageState :=
  match st.cachedKey with
  | none => (false, st)
  | some key =>
      let encryptedData := Storage.encrypt data key
      (true, { st with data := some encryptedData, cachedData := some data })

/-- Model of `Storage.changePIN`; `freshSalt` is the `generateSalt()`
output used for the new credential record. -/
def Storage.changePIN (freshSalt oldPIN newPIN : String) (st : StorageState) :
    Bool × StorageState :=
  let v := Storage.verifyPIN oldPIN st
  if !v.1 then (false, v.2)
  else
    let g := Storage.getData v.2
    match g.1 with
    | some data =>
        if jsTruthy data then
          let newSalt := freshSalt
          let newPinHash := Storage.hashPIN newPIN newSalt
          let newKey := Storage.deriveKey newPIN newSalt
          let newEncryptedData := Storage.encrypt data newKey
          (true,
           { g.2 with
              salt := some newSalt
              pinHash := some newPinHash
              data := some newEncryptedData
              cachedKey := some newKey })
        else (false, g.2)
    | none => (false, g.2)

/-- Model of `Storage.clearAll`. -/
def Storage.clearAll (st : StorageState) : StorageState :=
  Storage.clearCache
    { st with pinHash := none, salt := none, data := none, settings := none }

/-! ### The Auth restore flow (unnamed auth module, `Auth`)

Only the storage-relevant parts of `attemptRestore` / `completeRestore`
are modelled; the DOM updates of the failure path (clearing the entry
field, showing the "Incorrect PIN" error) are summarized by the
`incorrectPIN` outcome. -/

/-- Outcome of a restore attempt: acceptance, or the single generic
incorrect-PIN error surfaced to the user. -/
inductive RestoreOutcome where
  | restored : RestoreOutcome
  | incorrectPIN : RestoreOutcome
deriving DecidableEq

/-- Model of `Auth.extractSaltFromBackup`: the backup stores raw
encrypted data, so this always returns `null`. -/
def Auth.extractSaltFromBackup (_data : CipherText) : Option String :=
  none

/-- The validation `decrypted && decrypted.habits` applied to a
`Storage.decrypt` result. -/
def Auth.habitsShapeOK (decrypted : Option Json) : Bool :=
  match decrypted with
  | some d => jsTruthy d && truthyOpt (jsonGet d "habits")
  | none => false

/-- Model of `Auth.completeRestore`: persist the candidate PIN's length
(`savePinLength`), a fresh credential record, and the recovered document
re-encrypted under the new salt's key; populate the cache. -/
def Auth.completeRestore (freshSalt : String) (pin : String) (data : Json)
    (st : StorageState) : StorageState :=
  let st0 := { st with pinLength := some pin.length }
  let salt := freshSalt
  let pinHash := Storage.hashPIN pin salt
  let key := Storage.deriveKey pin salt
  let encryptedData := Storage.encrypt data key
  { st0 with
     salt := some salt
     pinHash := some pinHash
     data := some encryptedData
     cachedKey := some key
     cachedData := some data }

/-- Model of `Auth.attemptRestore` on the pending backup ciphertext.
Strategy 1 (run because `extractSaltFromBackup` returns `null`):
PBKDF2 with the fixed salt string. Strategy 2: PBKDF2 with
`pin + 'habit'` as the salt. First success wins; both failing is the
incorrect-PIN outcome, which touches no storage. -/
def Auth.attemptRestore (freshSalt : String) (pin : String)
    (encryptedData : CipherText) (st : StorageState) :
    RestoreOutcome × StorageState :=
  let salt := Auth.extractSaltFromBackup encryptedData
  let firstTry : Option Json :=
    match salt with
    | none =>
        let key := CryptoJS.PBKDF2 pin "habit-tracker-salt"
        let decrypted := Storage.decrypt encryptedData key
        if Auth.habitsShapeOK decrypted then decrypted else none
    | some _ => none
  match firstTry with
  | some d => (.restored, Auth.completeRestore freshSalt pin d st)
  | none =>
      let key := CryptoJS.PBKDF2 pin (pin ++ "habit")
      let decrypted := Storage.decrypt encryptedData key
      match decrypted with
      | some d =>
          if Auth.habitsShapeOK (some d) then
            (.restored, Auth.completeRestore freshSalt pin d st)
          else (.incorrectPIN, st)
      | none => (.incorrectPIN, st)

/-- The storage-mutating operations of the encrypted store, with every
`generateSalt()` draw passed explicitly. -/
inductive StoreOp where
  | setup (freshSalt pin : String)
  | verify (pin : String)
  | changePin (freshSalt oldPIN newPIN : String)
  | getData
  | saveData (d : Json)
  | clearAll
  | restoreAccept (freshSalt pin : String) (d : Json)

/-- State transition of one store operation (return values dropped). -/
def StoreOp.apply : StoreOp → StorageState → StorageState
  | .setup fs pin, st => (Storage.setupPIN fs pin st).2
  | .verify pin, st => (Storage.verifyPIN pin st).2
  | .changePin fs o n, st => (Storage.changePIN fs o n st).2
  | .getData, st => (Storage.getData st).2
  | .saveData d, st => (Storage.saveData d st).2
  | .clearAll, st => Storage.clearAll st
  | .restoreAccept fs pin d, st => Auth.completeRestore fs pin d st

/-- Cache coherence: whenever a document is cached, a key is cached as
well, a ciphertext is persisted, and the cached document is exactly
what that ciphertext decrypts to under the cached key. -/
def CacheCoherent (st : StorageState) : Prop :=
  ∀ d, st.cachedData = some d →
    ∃ key ct, st.cachedKey = some key ∧ st.data = some ct ∧
      Storage.decrypt ct key = some d

/-- One restore strategy succeeding with document `d`: the decrypt
result is `d` and it passes the `habits` shape check. -/
def StrategySucceeds (ct : CipherText) (key : PBKDF2Key) (d : Json) : Prop :=
  Storage.decrypt ct key = some d ∧ jsTruthy d = true ∧
    truthyOpt (jsonGet d "habits") = true

/-! ### Helper lemmas -/

/-- The empty store: fresh install, nothing persisted, nothing cached. -/
def emptyStore : StorageState :=
  { salt := none, pinHash := none, data := none, settings := none,
    pinLength := none, cachedKey := none, cachedData := none }

/-- The document of the change-PIN scenario: `{habits:[{id:"h1"}]}`. -/
def habitDoc : Json :=
  .obj [("habits", .arr [.obj [("id", .str "h1")]])]

theorem decrypt_encrypt (d : Json) (key : PBKDF2Key) :
    Storage.decrypt (Storage.encrypt d key) key = some d := by
  simp [Storage.encrypt, CryptoJS.AESencrypt, Storage.decrypt,
    Storage.decryptBody, CryptoJS.AESdecrypt, JSONstringify_ne_empty d,
    JSONparseExc_stringify d]

theorem decrypt_raw (s : String) (key : PBKDF2Key) :
    Storage.decrypt (.raw s) key = none := rfl

theorem decrypt_wrong_key (plain : String) (key k2 : PBKDF2Key)
    (h : key ≠ k2) : Storage.decrypt (.enc plain k2) key = none := by
  simp [Storage.decrypt, Storage.decryptBody, CryptoJS.AESdecrypt, h]

theorem strAppend_right_cancel (a b c : String) (h : a ++ c = b ++ c) :
    a = b := by
  obtain ⟨la⟩ := a
  obtain ⟨lb⟩ := b
  obtain ⟨lc⟩ := c
  have h2 : la ++ lc = lb ++ lc := congrArg String.data h
  exact congrArg String.mk (List.append_cancel_right h2)

theorem hashPIN_inj (p1 p2 salt : String)
    (h : Storage.hashPIN p1 salt = Storage.hashPIN p2 salt) : p1 = p2 := by
  have h2 : p1 ++ salt = p2 ++ salt := congrArg Sha256Digest.preimage h
  exact strAppend_right_cancel p1 p2 salt h2

theorem strategyFails_of_decrypt_none {ct : CipherText} {key : PBKDF2Key}
    (h : Storage.decrypt ct key = none) :
    ∀ e, ¬ StrategySucceeds ct key e := by
  intro e he
  obtain ⟨hdec, _, _⟩ := he
  rw [h] at hdec
  exact Option.noConfusion hdec

theorem verifyPIN_false_state (pin : String) (st : StorageState)
    (h : (Storage.verifyPIN pin st).1 = false) :
    (Storage.verifyPIN pin st).2 = st := by
  unfold Storage.verifyPIN at h ⊢
  rcases hsalt : st.salt with _ | salt
  · simp [hsalt]
  · rcases hhash : st.pinHash with _ | storedHash
    · simp [hsalt, hhash]
    · simp only [hsalt, hhash] at h ⊢
      by_cases he : salt = ""
      · simp [he]
      · simp only [if_neg he] at h ⊢
        by_cases hq : Storage.hashPIN pin salt = storedHash
        · rw [if_pos hq] at h
          simp at h
        · rw [if_neg hq]

theorem attemptRestore_characterization (freshSalt pin : String)
    (ct : CipherText) (st : StorageState) :
    Auth.attemptRestore freshSalt pin ct st =
      match (if Auth.habitsShapeOK
                  (Storage.decrypt ct (Storage.deriveKey pin "habit-tracker-salt"))
             then Storage.decrypt ct (Storage.deriveKey pin "habit-tracker-salt")
             else none) with
      | some d => (.restored, Auth.completeRestore freshSalt pin d st)
      | none =>
          match Storage.decrypt ct (Storage.deriveKey pin (pin ++ "habit")) with
          | some d =>
              if Auth.habitsShapeOK (some d) then
                (.restored, Auth.completeRestore freshSalt pin d st)
              else (.incorrectPIN, st)
          | none => (.incorrectPIN, st) := rfl

theorem attemptRestore_s1 (freshSalt pin : String) (ct : CipherText)
    (st : StorageState) (d : Json)
    (h : StrategySucceeds ct (Storage.deriveKey pin "habit-tracker-salt") d) :
    Auth.attemptRestore freshSalt pin ct st =
      (.restored, Auth.completeRestore freshSalt pin d st) := by
  rw [attemptRestore_characterization, h.1]
  simp [Auth.habitsShapeOK, h.2.1, h.2.2]

theorem attemptRestore_firstTry_none (pin : String) (ct : CipherText)
    (h1 : ∀ e, ¬ StrategySucceeds ct (Storage.deriveKey pin "habit-tracker-salt") e) :
    (if Auth.habitsShapeOK
          (Storage.decrypt ct (Storage.deriveKey pin "habit-tracker-salt"))
     then Storage.decrypt ct (Storage.deriveKey pin "habit-tracker-salt")
     else none) = none := by
  cases hdec : Storage.decrypt ct (Storage.deriveKey pin "habit-tracker-salt") with
  | none => simp [Auth.habitsShapeOK]
  | some d0 =>
      by_cases hOK : Auth.habitsShapeOK (some d0) = true
      · exfalso
        apply h1 d0
        refine ⟨hdec, ?_, ?_⟩
        · exact (Bool.and_eq_true _ _ |>.mp hOK).1
        · exact (Bool.and_eq_true _ _ |>.mp hOK).2
      · simp [Bool.not_eq_true] at hOK
        simp [hOK]

theorem attemptRestore_s2 (freshSalt pin : String) (ct : CipherText)
    (st : StorageState) (d : Json)
    (h1 : ∀ e, ¬ StrategySucceeds ct (Storage.deriveKey pin "habit-tracker-salt") e)
    (h2 : StrategySucceeds ct (Storage.deriveKey pin (pin ++ "habit")) d) :
    Auth.attemptRestore freshSalt pin ct st =
      (.restored, Auth.completeRestore freshSalt pin d st) := by
  rw [attemptRestore_characterization, attemptRestore_firstTry_none pin ct h1,
    h2.1]
  simp [Auth.habitsShapeOK, h2.2.1, h2.2.2]

theorem attemptRestore_fail (freshSalt pin : String) (ct : CipherText)
    (st : StorageState)
    (h1 : ∀ e, ¬ StrategySucceeds ct (Storage.deriveKey pin "habit-tracker-salt") e)
    (h2 : ∀ e, ¬ StrategySucceeds ct (Storage.deriveKey pin (pin ++ "habit")) e) :
    Auth.attemptRestore freshSalt pin ct st = (.incorrectPIN, st) := by
  rw [attemptRestore_characterization, attemptRestore_firstTry_none pin ct h1]
  cases hdec : Storage.decrypt ct (Storage.deriveKey pin (pin ++ "habit")) with
  | none => simp
  | some d0 =>
      by_cases hOK : Auth.habitsShapeOK (some d0) = true
      · exfalso
        apply h2 d0
        refine ⟨hdec, ?_, ?_⟩
        · exact (Bool.and_eq_true _ _ |>.mp hOK).1
        · exact (Bool.and_eq_true _ _ |>.mp hOK).2
      · simp [Bool.not_eq_true] at hOK
        simp [hOK]

/-! ### Branch equations for the store operations -/

theorem setupPIN_eq (fs pin : String) (st : StorageState) :
    Storage.setupPIN fs pin st =
      (true,
       { st with
          salt := some fs
          pinHash := some (Storage.hashPIN pin fs)
          data := some (Storage.encrypt Storage.initialData
                          (Storage.deriveKey pin fs))
          cachedKey := some (Storage.deriveKey pin fs)
          cachedData := some Storage.initialData }) := rfl

theorem completeRestore_eq (fs pin : String) (d : Json) (st : StorageState) :
    Auth.completeRestore fs pin d st =
      { st with
         pinLength := some pin.length
         salt := some fs
         pinHash := some (Storage.hashPIN pin fs)
         data := some (Storage.encrypt d (Storage.deriveKey pin fs))
         cachedKey := some (Storage.deriveKey pin fs)
         cachedData := some d } := rfl

theorem clearAll_eq (st : StorageState) :
    Storage.clearAll st =
      { st with
         salt := none, pinHash := none, data := none, settings := none,
         cachedKey := none, cachedData := none } := rfl

theorem cacheKey_eq_nosalt (pin : String) (st : StorageState)
    (hsalt : st.salt = none) : Storage.cacheKey pin st = st := by
  simp [Storage.cacheKey, hsalt]

theorem cacheKey_eq_emptysalt (pin : String) (st : StorageState)
    (hsalt : st.salt = some "") : Storage.cacheKey pin st = st := by
  simp [Storage.cacheKey, hsalt]

theorem cacheKey_eq_nodata (pin salt : String) (st : StorageState)
    (hsalt : st.salt = some salt) (he : salt ≠ "")
    (hdata : st.data = none) :
    Storage.cacheKey pin st =
      { st with cachedKey := some (Storage.deriveKey pin salt) } := by
  simp [Storage.cacheKey, hsalt, he, hdata]

theorem cacheKey_eq_data (pin salt : String) (ed : CipherText)
    (st : StorageState) (hsalt : st.salt = some salt) (he : salt ≠ "")
    (hdata : st.data = some ed) (hct : ctTruthy ed = true) :
    Storage.cacheKey pin st =
      { st with
         cachedKey := some (Storage.deriveKey pin salt)
         cachedData := Storage.decrypt ed (Storage.deriveKey pin salt) } := by
  simp [Storage.cacheKey, hsalt, he, hdata, hct]

theorem cacheKey_eq_falsyct (pin salt : String) (ed : CipherText)
    (st : StorageState) (hsalt : st.salt = some salt) (he : salt ≠ "")
    (hdata : st.data = some ed) (hct : ctTruthy ed = false) :
    Storage.cacheKey pin st =
      { st with cachedKey := some (Storage.deriveKey pin salt) } := by
  simp [Storage.cacheKey, hsalt, he, hdata, hct]

theorem verifyPIN_eq_nosalt (pin : String) (st : StorageState)
    (hsalt : st.salt = none) :
    Storage.verifyPIN pin st = (false, st) := by
  simp [Storage.verifyPIN, hsalt]

theorem verifyPIN_eq_nohash (pin salt0 : String) (st : StorageState)
    (hsalt : st.salt = some salt0) (hhash : st.pinHash = none) :
    Storage.verifyPIN pin st = (false, st) := by
  simp [Storage.verifyPIN, hsalt, hhash]

theorem verifyPIN_eq_emptysalt (pin : String) (h0 : Sha256Digest)
    (st : StorageState) (hsalt : st.salt = some "")
    (hhash : st.pinHash = some h0) :
    Storage.verifyPIN pin st = (false, st) := by
  simp [Storage.verifyPIN, hsalt, hhash]

theorem verifyPIN_eq_ok (pin salt0 : String) (h0 : Sha256Digest)
    (st : StorageState) (hsalt : st.salt = some salt0) (he : salt0 ≠ "")
    (hhash : st.pinHash = some h0)
    (hq : Storage.hashPIN pin salt0 = h0) :
    Storage.verifyPIN pin st = (true, Storage.cacheKey pin st) := by
  simp [Storage.verifyPIN, hsalt, hhash, he, hq]

theorem verifyPIN_eq_badpin (pin salt0 : String) (h0 : Sha256Digest)
    (st : StorageState) (hsalt : st.salt = some salt0) (he : salt0 ≠ "")
    (hhash : st.pinHash = some h0)
    (hq : Storage.hashPIN pin salt0 ≠ h0) :
    Storage.verifyPIN pin st = (false, st) := by
  simp [Storage.verifyPIN, hsalt, hhash, he, hq]

theorem getData_eq_cached (st : StorageState)
    (htr : truthyOpt st.cachedData = true) :
    Storage.getData st = (st.cachedData, st) := by
  simp [Storage.getData, htr]

theorem getData_eq_nokey (st : StorageState)
    (htr : truthyOpt st.cachedData = false)
    (hkey : st.cachedKey = none) :
    Storage.getData st = (none, st) := by
  simp [Storage.getData, htr, hkey]

theorem getData_eq_nodata (st : StorageState) (key : PBKDF2Key)
    (htr : truthyOpt st.cachedData = false)
    (hkey : st.cachedKey = some key) (hdata : st.data = none) :
    Storage.getData st = (none, st) := by
  simp [Storage.getData, htr, hkey, hdata]

theorem getData_eq_decrypt (st : StorageState) (key : PBKDF2Key)
    (ed : CipherText) (htr : truthyOpt st.cachedData = false)
    (hkey : st.cachedKey = some key) (hdata : st.data = some ed)
    (hct : ctTruthy ed = true) :
    Storage.getData st =
      (Storage.decrypt ed key,
       { st with cachedData := Storage.decrypt ed key }) := by
  simp [Storage.getData, htr, hkey, hdata, hct]

theorem getData_eq_falsyct (st : StorageState) (key : PBKDF2Key)
    (ed : CipherText) (htr : truthyOpt st.cachedData = false)
    (hkey : st.cachedKey = some key) (hdata : st.data = some ed)
    (hct : ctTruthy ed = false) :
    Storage.getData st = (none, st) := by
  simp [Storage.getData, htr, hkey, hdata, hct]

theorem saveData_eq_nokey (d : Json) (st : StorageState)
    (hkey : st.cachedKey = none) :
    Storage.saveData d st = (false, st) := by
  simp [Storage.saveData, hkey]

theorem saveData_eq (d : Json) (key : PBKDF2Key) (st : StorageState)
    (hkey : st.cachedKey = some key) :
    Storage.saveData d st =
      (true,
       { st with data := some (Storage.encrypt d key),
                 cachedData := some d }) := by
  simp [Storage.saveData, hkey]

theorem changePIN_eq_badverify (fs o n : String) (st : StorageState)
    (hv : (Storage.verifyPIN o st).1 = false) :
    Storage.changePIN fs o n st = (false, (Storage.verifyPIN o st).2) := by
  simp [Storage.changePIN, hv]

theorem changePIN_eq_nodoc (fs o n : String) (st : StorageState)
    (hv : (Storage.verifyPIN o st).1 = true)
    (hg : (Storage.getData (Storage.verifyPIN o st).2).1 = none) :
    Storage.changePIN fs o n st =
      (false, (Storage.getData (Storage.verifyPIN o st).2).2) := by
  simp [Storage.changePIN, hv, hg]

theorem changePIN_eq_falsydoc (fs o n : String) (d : Json)
    (st : StorageState)
    (hv : (Storage.verifyPIN o st).1 = true)
    (hg : (Storage.getData (Storage.verifyPIN o st).2).1 = some d)
    (hjt : jsTruthy d = false) :
    Storage.changePIN fs o n st =
      (false, (Storage.getData (Storage.verifyPIN o st).2).2) := by
  simp [Storage.changePIN, hv, hg, hjt]

theorem changePIN_eq_ok (fs o n : String) (d : Json) (st : StorageState)
    (hv : (Storage.verifyPIN o st).1 = true)
    (hg : (Storage.getData (Storage.verifyPIN o st).2).1 = some d)
    (hjt : jsTruthy d = true) :
    Storage.changePIN fs o n st =
      (true,
       { (Storage.getData (Storage.verifyPIN o st).2).2 with
          salt := some fs
          pinHash := some (Storage.hashPIN n fs)
          data := some (Storage.encrypt d (Storage.deriveKey n fs))
          cachedKey := some (Storage.deriveKey n fs) }) := by
  simp [Storage.changePIN, hv, hg, hjt]

/-! ### Cache-coherence preservation, operation by operation -/

theorem coherent_cacheKey (pin : String) (st : StorageState)
    (h : CacheCoherent st) : CacheCoherent (Storage.cacheKey pin st) := by
  rcases hsalt : st.salt with _ | salt
  · rw [cacheKey_eq_nosalt pin st hsalt]
    exact h
  · by_cases he : salt = ""
    · subst he
      rw [cacheKey_eq_emptysalt pin st hsalt]
      exact h
    · rcases hdata : st.data with _ | ed
      · rw [cacheKey_eq_nodata pin salt st hsalt he hdata]
        intro d hd
        have hd2 : st.cachedData = some d := hd
        obtain ⟨k0, ct0, hk0, hct0, hdec⟩ := h d hd2
        rw [hdata] at hct0
        exact Option.noConfusion hct0
      · rcases Bool.eq_false_or_eq_true (ctTruthy ed) with hct | hct
        · rw [cacheKey_eq_data pin salt ed st hsalt he hdata hct]
          intro d hd
          have hd2 : Storage.decrypt ed (Storage.deriveKey pin salt) = some d :=
            hd
          exact ⟨Storage.deriveKey pin salt, ed, rfl, hdata, hd2⟩
        · rw [cacheKey_eq_falsyct pin salt ed st hsalt he hdata hct]
          intro d hd
          exfalso
          have hd2 : st.cachedData = some d := hd
          obtain ⟨k0, ct0, hk0, hct0, hdec⟩ := h d hd2
          rw [hdata] at hct0
          injection hct0 with hct0
          subst hct0
          cases ed with
          | enc p k => simp [ctTruthy] at hct
          | raw s =>
              simp [ctTruthy] at hct
              subst hct
              rw [decrypt_raw] at hdec
              exact Option.noConfusion hdec

theorem coherent_verifyPIN (pin : String) (st : StorageState)
    (h : CacheCoherent st) : CacheCoherent (Storage.verifyPIN pin st).2 := by
  rcases hsalt : st.salt with _ | salt
  · rw [verifyPIN_eq_nosalt pin st hsalt]
    exact h
  · rcases hhash : st.pinHash with _ | h0
    · rw [verifyPIN_eq_nohash pin salt st hsalt hhash]
      exact h
    · by_cases he : salt = ""
      · subst he
        rw [verifyPIN_eq_emptysalt pin h0 st hsalt hhash]
        exact h
      · by_cases hq : Storage.hashPIN pin salt = h0
        · rw [verifyPIN_eq_ok pin salt h0 st hsalt he hhash hq]
          exact coherent_cacheKey pin st h
        · rw [verifyPIN_eq_badpin pin salt h0 st hsalt he hhash hq]
          exact h

theorem coherent_getData (st : StorageState)
    (h : CacheCoherent st) : CacheCoherent (Storage.getData st).2 := by
  rcases Bool.eq_false_or_eq_true (truthyOpt st.cachedData) with htr | htr
  · rw [getData_eq_cached st htr]
    exact h
  · rcases hkey : st.cachedKey with _ | key
    · rw [getData_eq_nokey st htr hkey]
      exact h
    · rcases hdata : st.data with _ | ed
      · rw [getData_eq_nodata st key htr hkey hdata]
        exact h
      · rcases Bool.eq_false_or_eq_true (ctTruthy ed) with hct | hct
        · rw [getData_eq_decrypt st key ed htr hkey hdata hct]
          intro d hd
          have hd2 : Storage.decrypt ed key = some d := hd
          exact ⟨key, ed, hkey, hdata, hd2⟩
        · rw [getData_eq_falsyct st key ed htr hkey hdata hct]
          exact h

theorem getData_some_cache (st : StorageState) (d : Json) :
    (Storage.getData st).1 = some d →
      (Storage.getData st).2.cachedData = some d := by
  rcases Bool.eq_false_or_eq_true (truthyOpt st.cachedData) with htr | htr
  · rw [getData_eq_cached st htr]
    exact fun hx => hx
  · rcases hkey : st.cachedKey with _ | key
    · rw [getData_eq_nokey st htr hkey]
      intro hcontra
      exact Option.noConfusion hcontra
    · rcases hdata : st.data with _ | ed
      · rw [getData_eq_nodata st key htr hkey hdata]
        intro hcontra
        exact Option.noConfusion hcontra
      · rcases Bool.eq_false_or_eq_true (ctTruthy ed) with hct | hct
        · rw [getData_eq_decrypt st key ed htr hkey hdata hct]
          exact fun hx => hx
        · rw [getData_eq_falsyct st key ed htr hkey hdata hct]
          intro hcontra
          exact Option.noConfusion hcontra

theorem coherent_saveData (d0 : Json) (st : StorageState)
    (h : CacheCoherent st) : CacheCoherent (Storage.saveData d0 st).2 := by
  rcases hkey : st.cachedKey with _ | key
  · rw [saveData_eq_nokey d0 st hkey]
    exact h
  · rw [saveData_eq d0 key st hkey]
    intro d hd
    have hd2 : some d0 = some d := hd
    injection hd2 with hd2
    exact ⟨key, Storage.encrypt d0 key, hkey, rfl,
      hd2 ▸ decrypt_encrypt d0 key⟩

theorem coherent_setupPIN (fs pin : String) (st : StorageState) :
    CacheCoherent (Storage.setupPIN fs pin st).2 := by
  rw [setupPIN_eq fs pin st]
  intro d hd
  have hd2 : some Storage.initialData = some d := hd
  injection hd2 with hd2
  exact ⟨Storage.deriveKey pin fs,
    Storage.encrypt Storage.initialData (Storage.deriveKey pin fs), rfl, rfl,
    hd2 ▸ decrypt_encrypt Storage.initialData (Storage.deriveKey pin fs)⟩

theorem coherent_completeRestore (fs pin : String) (d0 : Json)
    (st : StorageState) :
    CacheCoherent (Auth.completeRestore fs pin d0 st) := by
  rw [completeRestore_eq fs pin d0 st]
  intro d hd
  have hd2 : some d0 = some d := hd
  injection hd2 with hd2
  exact ⟨Storage.deriveKey pin fs,
    Storage.encrypt d0 (Storage.deriveKey pin fs), rfl, rfl,
    hd2 ▸ decrypt_encrypt d0 (Storage.deriveKey pin fs)⟩

theorem coherent_clearAll (st : StorageState) :
    CacheCoherent (Storage.clearAll st) := by
  rw [clearAll_eq st]
  intro d hd
  exact Option.noConfusion hd

theorem coherent_changePIN (fs o n : String) (st : StorageState)
    (h : CacheCoherent st) : CacheCoherent (Storage.changePIN fs o n st).2 := by
  have hv := coherent_verifyPIN o st h
  rcases Bool.eq_false_or_eq_true (Storage.verifyPIN o st).1 with hv1 | hv1
  · have hg := coherent_getData (Storage.verifyPIN o st).2 hv
    rcases hgd : (Storage.getData (Storage.verifyPIN o st).2).1 with _ | data
    · rw [changePIN_eq_nodoc fs o n st hv1 hgd]
      exact hg
    · rcases Bool.eq_false_or_eq_true (jsTruthy data) with hjt | hjt
      · rw [changePIN_eq_ok fs o n data st hv1 hgd hjt]
        intro e he
        have he2 : (Storage.getData (Storage.verifyPIN o st).2).2.cachedData
            = some e := he
        have hc := getData_some_cache (Storage.verifyPIN o st).2 data hgd
        rw [hc] at he2
        injection he2 with he2
        exact ⟨Storage.deriveKey n fs,
          Storage.encrypt data (Storage.deriveKey n fs), rfl, rfl,
          he2 ▸ decrypt_encrypt data (Storage.deriveKey n fs)⟩
      · rw [changePIN_eq_falsydoc fs o n data st hv1 hgd hjt]
        exact hg
  · rw [changePIN_eq_badverify fs o n st hv1]
    exact hv

/-! ### The claims -/

/-- C2: for every JSON-serializable document `D` and every key `K`,
`decrypt(encrypt(D, K), K)` returns `D` — the Cipher round-trips any
document under the same key. -/
theorem cipher_roundTrip (d : Json) (key : PBKDF2Key) :
    Storage.decrypt (Storage.encrypt d key) key = some d :=
  decrypt_encrypt d key

/-- C3: `Storage.decrypt` never throws: every throw of its body
(UTF-8 decoding of a wrong-key or malformed decryption, or a JSON
parse failure) is caught and turned into `null`, an empty decrypted
byte string yields `null`, and a successful non-empty decryption
returns the parsed document. -/
theorem decrypt_never_throws (ct : CipherText) (key : PBKDF2Key) :
    (∀ e, Storage.decryptBody ct key = .error e →
        Storage.decrypt ct key = none)
    ∧ (CryptoJS.AESdecrypt ct key = .ok "" → Storage.decrypt ct key = none)
    ∧ (∀ s, CryptoJS.AESdecrypt ct key = .ok s → s ≠ "" →
        JSONparseExc s = .error () → Storage.decrypt ct key = none)
    ∧ (∀ s j, CryptoJS.AESdecrypt ct key = .ok s → s ≠ "" →
        JSONparseExc s = .ok j → Storage.decrypt ct key = some j) := by
  refine ⟨?_, ?_, ?_, ?_⟩
  · intro e he
    simp [Storage.decrypt, he]
  · intro he
    simp [Storage.decrypt, Storage.decryptBody, he]
  · intro s hs hne hp
    simp [Storage.decrypt, Storage.decryptBody, hs, hne, hp]
  · intro s j hs hne hp
    simp [Storage.decrypt, Storage.decryptBody, hs, hne, hp]

/-- Witness for C3: an empty-plaintext ciphertext decrypts to `null`, a
malformed ciphertext decrypts to `null`, and a well-formed ciphertext
decrypts to its document. -/
theorem decrypt_never_throws_witness :
    Storage.decrypt (CipherText.enc "" (Storage.deriveKey "1234" "ab"))
        (Storage.deriveKey "1234" "ab") = none
    ∧ Storage.decrypt (CipherText.raw "junk")
        (Storage.deriveKey "1234" "ab") = none
    ∧ Storage.decrypt (Storage.encrypt habitDoc (Storage.deriveKey "1234" "ab"))
        (Storage.deriveKey "1234" "ab") = some habitDoc :=
  ⟨(decrypt_never_throws (CipherText.enc "" (Storage.deriveKey "1234" "ab"))
      (Storage.deriveKey "1234" "ab")).2.1 rfl,
   (decrypt_never_throws (CipherText.raw "junk")
      (Storage.deriveKey "1234" "ab")).1 () rfl,
   (decrypt_never_throws (Storage.encrypt habitDoc (Storage.deriveKey "1234" "ab"))
      (Storage.deriveKey "1234" "ab")).2.2.2 (JSONstringify habitDoc) habitDoc
      rfl (JSONstringify_ne_empty habitDoc) (JSONparseExc_stringify habitDoc)⟩

/-- C4: verifier soundness — after `setupPIN(pin)` (with the nonempty
salt that `generateSalt()` produces), `verifyPIN(pin)` returns true and
`verifyPIN(pin2)` returns false for every `pin2 ≠ pin`. -/
theorem verifier_soundness (pin pin2 freshSalt : String) (st : StorageState)
    (hsalt : freshSalt ≠ "") :
    (Storage.verifyPIN pin (Storage.setupPIN freshSalt pin st).2).1 = true
    ∧ (pin2 ≠ pin →
        (Storage.verifyPIN pin2 (Storage.setupPIN freshSalt pin st).2).1
          = false) := by
  constructor
  · rw [verifyPIN_eq_ok pin freshSalt (Storage.hashPIN pin freshSalt)
      (Storage.setupPIN freshSalt pin st).2 rfl hsalt rfl rfl]
  · intro hne
    have hq : Storage.hashPIN pin2 freshSalt ≠ Storage.hashPIN pin freshSalt :=
      fun hcontra => hne (hashPIN_inj pin2 pin freshSalt hcontra)
    rw [verifyPIN_eq_badpin pin2 freshSalt (Storage.hashPIN pin freshSalt)
      (Storage.setupPIN freshSalt pin st).2 rfl hsalt rfl hq]

/-- Witness for C4 at `pin = "1234"`, `pin2 = "0000"`, salt `"ab"`. -/
theorem verifier_soundness_witness :
    (Storage.verifyPIN "1234" (Storage.setupPIN "ab" "1234" emptyStore).2).1
      = true
    ∧ (Storage.verifyPIN "0000" (Storage.setupPIN "ab" "1234" emptyStore).2).1
      = false :=
  ⟨(verifier_soundness "1234" "0000" "ab" emptyStore (by decide)).1,
   (verifier_soundness "1234" "0000" "ab" emptyStore (by decide)).2 (by decide)⟩

/-- C5: `changePIN` invoked on a configured store with an old PIN that
does not verify returns false and leaves the persisted salt, pinHash
and data ciphertext exactly as they were. -/
theorem changePIN_wrong_old_unchanged (freshSalt old new salt0 : String)
    (h0 : Sha256Digest) (st : StorageState)
    (hsalt : st.salt = some salt0) (hhash : st.pinHash = some h0)
    (hv : (Storage.verifyPIN old st).1 = false) :
    (Storage.changePIN freshSalt old new st).1 = false
    ∧ (Storage.changePIN freshSalt old new st).2.salt = st.salt
    ∧ (Storage.changePIN freshSalt old new st).2.pinHash = st.pinHash
    ∧ (Storage.changePIN freshSalt old new st).2.data = st.data := by
  have hstate := verifyPIN_false_state old st hv
  rw [changePIN_eq_badverify freshSalt old new st hv, hstate]
  exact ⟨rfl, rfl, rfl, rfl⟩

/-- Witness for C5: wrong old PIN `"0000"` against a store set up with
`"1234"`. -/
theorem changePIN_wrong_old_unchanged_witness :
    (Storage.changePIN "cd" "0000" "5678"
        (Storage.setupPIN "ab" "1234" emptyStore).2).1 = false
    ∧ (Storage.changePIN "cd" "0000" "5678"
        (Storage.setupPIN "ab" "1234" emptyStore).2).2.salt
      = (Storage.setupPIN "ab" "1234" emptyStore).2.salt
    ∧ (Storage.changePIN "cd" "0000" "5678"
        (Storage.setupPIN "ab" "1234" emptyStore).2).2.pinHash
      = (Storage.setupPIN "ab" "1234" emptyStore).2.pinHash
    ∧ (Storage.changePIN "cd" "0000" "5678"
        (Storage.setupPIN "ab" "1234" emptyStore).2).2.data
      = (Storage.setupPIN "ab" "1234" emptyStore).2.data :=
  changePIN_wrong_old_unchanged "cd" "0000" "5678" "ab"
    (Storage.hashPIN "1234" "ab") (Storage.setupPIN "ab" "1234" emptyStore).2
    rfl rfl (by decide)

/-- C6: the change-PIN scenario — set up with `"1234"`, save
`{habits:[{id:"h1"}]}`, change the PIN to `"5678"`: the change
succeeds, `"5678"` verifies, and `getData` returns the same document
whose `habits[0].id` is `"h1"`. -/
theorem changePIN_preserves_data (st0 : StorageState) (s1 s2 : String)
    (hs1 : s1 ≠ "") (hs2 : s2 ≠ "") :
    (Storage.changePIN s2 "1234" "5678"
        (Storage.saveData habitDoc (Storage.setupPIN s1 "1234" st0).2).2).1
      = true
    ∧ (Storage.verifyPIN "5678"
        (Storage.changePIN s2 "1234" "5678"
          (Storage.saveData habitDoc
            (Storage.setupPIN s1 "1234" st0).2).2).2).1 = true
    ∧ (Storage.getData
        (Storage.verifyPIN "5678"
          (Storage.changePIN s2 "1234" "5678"
            (Storage.saveData habitDoc
              (Storage.setupPIN s1 "1234" st0).2).2).2).2).1 = some habitDoc
    ∧ jsonGet habitDoc "habits"
        = some (Json.arr [Json.obj [("id", Json.str "h1")]])
    ∧ jsonGet (Json.obj [("id", Json.str "h1")]) "id" = some (Json.str "h1") := by
  refine ⟨?_, ?_, ?_, rfl, rfl⟩ <;>
    simp [Storage.setupPIN, Storage.saveData, Storage.changePIN,
      Storage.verifyPIN, Storage.cacheKey, Storage.getData, decrypt_encrypt,
      hs1, hs2, truthyOpt, jsTruthy, ctTruthy, habitDoc]

/-- Witness for C6 at salts `"ab"`, `"cd"` on the empty store. -/
theorem changePIN_preserves_data_witness :
    (Storage.changePIN "cd" "1234" "5678"
        (Storage.saveData habitDoc (Storage.setupPIN "ab" "1234" emptyStore).2).2).1
      = true
    ∧ (Storage.verifyPIN "5678"
        (Storage.changePIN "cd" "1234" "5678"
          (Storage.saveData habitDoc
            (Storage.setupPIN "ab" "1234" emptyStore).2).2).2).1 = true
    ∧ (Storage.getData
        (Storage.verifyPIN "5678"
          (Storage.changePIN "cd" "1234" "5678"
            (Storage.saveData habitDoc
              (Storage.setupPIN "ab" "1234" emptyStore).2).2).2).2).1
      = some habitDoc
    ∧ jsonGet habitDoc "habits"
        = some (Json.arr [Json.obj [("id", Json.str "h1")]])
    ∧ jsonGet (Json.obj [("id", Json.str "h1")]) "id" = some (Json.str "h1") :=
  changePIN_preserves_data emptyStore "ab" "cd" (by decide) (by decide)

/-- C1 (counterexample): the claim says restore strategy 2 derives its
key "using the candidate PIN itself as the salt".  The code instead
uses `pin + 'habit'` as the salt.  A backup encrypted under
`PBKDF2("1234", "1234")` — the key the claim's strategy 2 would derive
— holds a shape-valid document (truthy with a truthy `habits` field)
that decrypts under that key, yet the reconciler rejects it with the
incorrect-PIN outcome. -/
theorem restore_selfSalt_counterexample :
    jsTruthy habitDoc = true
    ∧ truthyOpt (jsonGet habitDoc "habits") = true
    ∧ Storage.decrypt (Storage.encrypt habitDoc (Storage.deriveKey "1234" "1234"))
        (Storage.deriveKey "1234" "1234") = some habitDoc
    ∧ Auth.attemptRestore "ab" "1234"
        (Storage.encrypt habitDoc (Storage.deriveKey "1234" "1234")) emptyStore
      = (RestoreOutcome.incorrectPIN, emptyStore) := by
  refine ⟨rfl, rfl, decrypt_encrypt habitDoc (Storage.deriveKey "1234" "1234"), ?_⟩
  apply attemptRestore_fail
  · apply strategyFails_of_decrypt_none
    apply decrypt_wrong_key
    intro hcontra
    exact absurd (congrArg PBKDF2Key.salt hcontra) (by decide)
  · apply strategyFails_of_decrypt_none
    apply decrypt_wrong_key
    intro hcontra
    exact absurd (congrArg PBKDF2Key.salt hcontra) (by decide)

/-- C1 (amended): the reconciler tries its strategies in fixed order
with the first success winning — strategy 1 derives the key with the
fixed default salt constant `'habit-tracker-salt'`, strategy 2 derives
the key with `pin + 'habit'` (the candidate PIN concatenated with the
constant suffix `'habit'`) as the salt; acceptance requires the
decrypted result to be truthy with a truthy top-level `habits`
collection, and only if both strategies fail is the incorrect-PIN
outcome reported. -/
theorem restore_strategy_order (freshSalt pin : String) (ct : CipherText)
    (st : StorageState) :
    (∀ d, StrategySucceeds ct (Storage.deriveKey pin "habit-tracker-salt") d →
        Auth.attemptRestore freshSalt pin ct st =
          (.restored, Auth.completeRestore freshSalt pin d st))
    ∧ ((∀ d, ¬ StrategySucceeds ct (Storage.deriveKey pin "habit-tracker-salt") d) →
        ∀ d, StrategySucceeds ct (Storage.deriveKey pin (pin ++ "habit")) d →
          Auth.attemptRestore freshSalt pin ct st =
            (.restored, Auth.completeRestore freshSalt pin d st))
    ∧ ((∀ d, ¬ StrategySucceeds ct (Storage.deriveKey pin "habit-tracker-salt") d) →
       (∀ d, ¬ StrategySucceeds ct (Storage.deriveKey pin (pin ++ "habit")) d) →
        Auth.attemptRestore freshSalt pin ct st = (.incorrectPIN, st)) :=
  ⟨fun d hd => attemptRestore_s1 freshSalt pin ct st d hd,
   fun h1 d hd => attemptRestore_s2 freshSalt pin ct st d h1 hd,
   fun h1 h2 => attemptRestore_fail freshSalt pin ct st h1 h2⟩

/-- Witness for the amended C1: a backup encrypted under the strategy-1
key is accepted and restored. -/
theorem restore_strategy_order_witness :
    Auth.attemptRestore "ab" "1234"
        (Storage.encrypt habitDoc
          (Storage.deriveKey "1234" "habit-tracker-salt")) emptyStore =
      (RestoreOutcome.restored,
       Auth.completeRestore "ab" "1234" habitDoc emptyStore) :=
  (restore_strategy_order "ab" "1234"
      (Storage.encrypt habitDoc (Storage.deriveKey "1234" "habit-tracker-salt"))
      emptyStore).1 habitDoc
    ⟨decrypt_encrypt habitDoc (Storage.deriveKey "1234" "habit-tracker-salt"),
     rfl, rfl⟩

/-- C7: a restore attempt in which both strategies fail leaves every
persisted record (salt, pinHash, data ciphertext) unchanged,
establishes no cached key or document, and surfaces the single
incorrect-PIN outcome. -/
theorem restore_failure_preserves_state (freshSalt pin : String)
    (ct : CipherText) (st : StorageState)
    (h1 : ∀ e, ¬ StrategySucceeds ct (Storage.deriveKey pin "habit-tracker-salt") e)
    (h2 : ∀ e, ¬ StrategySucceeds ct (Storage.deriveKey pin (pin ++ "habit")) e) :
    (Auth.attemptRestore freshSalt pin ct st).1 = RestoreOutcome.incorrectPIN
    ∧ (Auth.attemptRestore freshSalt pin ct st).2.salt = st.salt
    ∧ (Auth.attemptRestore freshSalt pin ct st).2.pinHash = st.pinHash
    ∧ (Auth.attemptRestore freshSalt pin ct st).2.data = st.data
    ∧ (Auth.attemptRestore freshSalt pin ct st).2.cachedKey = st.cachedKey
    ∧ (Auth.attemptRestore freshSalt pin ct st).2.cachedData = st.cachedData := by
  rw [attemptRestore_fail freshSalt pin ct st h1 h2]
  exact ⟨rfl, rfl, rfl, rfl, rfl, rfl⟩

/-- Witness for C7: a malformed backup blob fails both strategies on
the empty store. -/
theorem restore_failure_preserves_state_witness :
    (Auth.attemptRestore "ab" "9999" (CipherText.raw "garbage") emptyStore).1
      = RestoreOutcome.incorrectPIN
    ∧ (Auth.attemptRestore "ab" "9999" (CipherText.raw "garbage") emptyStore).2.salt
      = emptyStore.salt
    ∧ (Auth.attemptRestore "ab" "9999" (CipherText.raw "garbage") emptyStore).2.pinHash
      = emptyStore.pinHash
    ∧ (Auth.attemptRestore "ab" "9999" (CipherText.raw "garbage") emptyStore).2.data
      = emptyStore.data
    ∧ (Auth.attemptRestore "ab" "9999" (CipherText.raw "garbage") emptyStore).2.cachedKey
      = emptyStore.cachedKey
    ∧ (Auth.attemptRestore "ab" "9999" (CipherText.raw "garbage") emptyStore).2.cachedData
      = emptyStore.cachedData :=
  restore_failure_preserves_state "ab" "9999" (CipherText.raw "garbage")
    emptyStore
    (strategyFails_of_decrypt_none (decrypt_raw "garbage"
      (Storage.deriveKey "9999" "habit-tracker-salt")))
    (strategyFails_of_decrypt_none (decrypt_raw "garbage"
      (Storage.deriveKey "9999" ("9999" ++ "habit"))))

/-- C8: when a strategy yields a valid document, acceptance persists a
new credential record under the fresh salt (hash and key computed from
the candidate PIN), stores the recovered document re-encrypted under
that new key, records the PIN length, and populates the cache with the
key and the document, which the new ciphertext decrypts back to. -/
theorem restore_accept_establishes_state (freshSalt pin : String)
    (ct : CipherText) (st : StorageState) (d : Json)
    (h : StrategySucceeds ct (Storage.deriveKey pin "habit-tracker-salt") d ∨
         ((∀ e, ¬ StrategySucceeds ct
            (Storage.deriveKey pin "habit-tracker-salt") e) ∧
          StrategySucceeds ct (Storage.deriveKey pin (pin ++ "habit")) d)) :
    Auth.attemptRestore freshSalt pin ct st =
      (.restored,
       { st with
          pinLength := some pin.length
          salt := some freshSalt
          pinHash := some (Storage.hashPIN pin freshSalt)
          data := some (Storage.encrypt d (Storage.deriveKey pin freshSalt))
          cachedKey := some (Storage.deriveKey pin freshSalt)
          cachedData := some d })
    ∧ Storage.decrypt (Storage.encrypt d (Storage.deriveKey pin freshSalt))
        (Storage.deriveKey pin freshSalt) = some d := by
  refine ⟨?_, decrypt_encrypt d (Storage.deriveKey pin freshSalt)⟩
  rcases h with h | ⟨h1, h2⟩
  · rw [attemptRestore_s1 freshSalt pin ct st d h, completeRestore_eq]
  · rw [attemptRestore_s2 freshSalt pin ct st d h1 h2, completeRestore_eq]

/-- Witness for C8: acceptance via strategy 1 on the empty store. -/
theorem restore_accept_establishes_state_witness :
    Auth.attemptRestore "ab" "1234"
        (Storage.encrypt habitDoc
          (Storage.deriveKey "1234" "habit-tracker-salt")) emptyStore =
      (.restored,
       { emptyStore with
          pinLength := some (String.length "1234")
          salt := some "ab"
          pinHash := some (Storage.hashPIN "1234" "ab")
          data := some (Storage.encrypt habitDoc (Storage.deriveKey "1234" "ab"))
          cachedKey := some (Storage.deriveKey "1234" "ab")
          cachedData := some habitDoc })
    ∧ Storage.decrypt (Storage.encrypt habitDoc (Storage.deriveKey "1234" "ab"))
        (Storage.deriveKey "1234" "ab") = some habitDoc :=
  restore_accept_establishes_state "ab" "1234"
    (Storage.encrypt habitDoc (Storage.deriveKey "1234" "habit-tracker-salt"))
    emptyStore habitDoc
    (Or.inl ⟨decrypt_encrypt habitDoc
        (Storage.deriveKey "1234" "habit-tracker-salt"), rfl, rfl⟩)

/-- C9: cache coherence is preserved by every store operation — if a
cached document is present after the operation, a cached key is
present and the document is exactly what the persisted ciphertext
decrypts to under that key. -/
theorem storeOps_preserve_cacheCoherence (op : StoreOp) (st : StorageState)
    (h : CacheCoherent st) : CacheCoherent (StoreOp.apply op st) := by
  cases op with
  | setup fs pin => exact coherent_setupPIN fs pin st
  | verify pin => exact coherent_verifyPIN pin st h
  | changePin fs o n => exact coherent_changePIN fs o n st h
  | getData => exact coherent_getData st h
  | saveData d => exact coherent_saveData d st h
  | clearAll => exact coherent_clearAll st
  | restoreAccept fs pin d => exact coherent_completeRestore fs pin d st

/-- Witness for C9: coherence of the store set up from the coherent
empty store. -/
theorem storeOps_preserve_cacheCoherence_witness :
    CacheCoherent (StoreOp.apply (StoreOp.setup "ab" "1234") emptyStore) :=
  storeOps_preserve_cacheCoherence (StoreOp.setup "ab" "1234") emptyStore
    (fun d hd => Option.noConfusion hd)

/-- C10: `setupPIN` returns true on every state — configured or not,
with no verification of any existing PIN — overwriting salt, pinHash
and ciphertext with fresh values that encrypt the initial empty
document (empty habits array, empty completions map, default settings)
and repopulating the cache. -/
theorem setupPIN_unconditional_overwrite (freshSalt pin : String)
    (st : StorageState) :
    Storage.setupPIN freshSalt pin st =
      (true,
       { st with
          salt := some freshSalt
          pinHash := some (Storage.hashPIN pin freshSalt)
          data := some (Storage.encrypt Storage.initialData
                          (Storage.deriveKey pin freshSalt))
          cachedKey := some (Storage.deriveKey pin freshSalt)
          cachedData := some Storage.initialData })
    ∧ Storage.decrypt
        (Storage.encrypt Storage.initialData (Storage.deriveKey pin freshSalt))
        (Storage.deriveKey pin freshSalt) = some Storage.initialData
    ∧ jsonGet Storage.initialData "habits" = some (Json.arr [])
    ∧ jsonGet Storage.initialData "completions" = some (Json.obj [])
    ∧ jsonGet Storage.initialData "settings"
        = some (Json.obj [("theme", Json.str "auto"),
                          ("defaultView", Json.str "list")]) :=
  ⟨setupPIN_eq freshSalt pin st,
   decrypt_encrypt Storage.initialData (Storage.deriveKey pin freshSalt),
   rfl, rfl, rfl⟩
